import Mathlib

/-!
Verification of the library management system (`library_management_system.py`).

The source is shallowly embedded: Python strings become `List Char`, Python
dicts become insertion-ordered association lists, in-place object mutation
becomes explicit state passing (each operation returns its result flag
together with the updated objects), and the `Library` class variables
`book_count` / `member_count` become an explicit `Counters` record threaded
through the operations that touch them.
-/

/-- Python strings are modelled as lists of characters. -/
abbrev Str := List Char

/-- Conversion from a Lean string literal to the model's string type. -/
def str (s : String) : Str := s.data

/-- Membership of a character in a string: Python's `c in s`. -/
def hasChar (c : Char) (s : Str) : Bool := s.any (fun x => decide (x = c))

/-- Python's `s.startswith(c)` for a single-character argument. -/
def startsWithChar (c : Char) : Str → Bool
  | [] => false
  | x :: _ => decide (x = c)

/-- Python's `s.split(c)` for a single-character separator: splits at every
occurrence of `c`, keeping empty segments.  The result is always nonempty. -/
def splitOnP (p : Char → Bool) : Str → List Str
  | [] => [[]]
  | c :: cs =>
    if p c then [] :: splitOnP p cs
    else
      match splitOnP p cs with
      | [] => [[c]]
      | t :: ts => (c :: t) :: ts

/-- Python's `s.split('@')` and friends. -/
def splitOnChar (c : Char) (s : Str) : List Str :=
  splitOnP (fun x => decide (x = c)) s

/-- Python's `s.split()` (no argument): whitespace-separated tokens, empty
segments discarded. -/
def splitWs (s : Str) : List Str :=
  (splitOnP Char.isWhitespace s).filter (fun t => decide (t ≠ []))

/-- Python's `s.lower()` (ASCII case folding, which covers all inputs the
program manipulates). -/
def toLowerL (s : Str) : Str := s.map Char.toLower

/-- Test `needle.isPref hay`: the first string is a leading segment of the second. -/
def isPref : Str → Str → Bool
  | [], _ => true
  | _ :: _, [] => false
  | a :: as, b :: bs => decide (a = b) && isPref as bs

/-- Python's substring test `needle in hay`. -/
def containsSub (needle : Str) : Str → Bool
  | [] => isPref needle []
  | c :: t => isPref needle (c :: t) || containsSub needle t

/-- Python dict lookup `d[k]` / `k in d` over an association list: the value
at the first matching key. -/
def lookupMap {α : Type} : List (Str × α) → Str → Option α
  | [], _ => none
  | p :: ps, k => if p.1 = k then some p.2 else lookupMap ps k

/-- Python dict assignment `d[k] = v` for a key already present: replaces the
value at the first matching key, keeping insertion order. -/
def updateMap {α : Type} : List (Str × α) → Str → α → List (Str × α)
  | [], _, _ => []
  | p :: ps, k, v => if p.1 = k then (k, v) :: ps else p :: updateMap ps k v

/-- Python's `list.remove(x)`: drops the first occurrence. -/
def removeFirst : List Str → Str → List Str
  | [], _ => []
  | x :: xs, y => if x = y then xs else x :: removeFirst xs y

/-- The `Library` class variables `book_count` and `member_count`
(process-wide, shared by every `Library` instance). -/
structure Counters where
  book_count : Nat
  member_count : Nat
deriving DecidableEq, Repr

/-- Embeds `class Book` (the fiction / non-fiction subclasses add only descriptive
fields and do not change any behaviour the claims are about). -/
structure Book where
  book_id : Str
  title : Str
  author : Str
  genre : Str
  publication_year : Int
  is_available : Bool
deriving DecidableEq, Repr

/-- Embeds `Book.checkout`. -/
def Book.checkout (b : Book) : Bool × Book :=
  if b.is_available = false then (false, b)
  else (true, { b with is_available := false })

/-- Embeds `Book.return_to_library`. -/
def Book.return_to_library (b : Book) : Bool × Book :=
  if b.is_available = true then (false, b)
  else (true, { b with is_available := true })

/-- Embeds `class Member`. -/
structure Member where
  member_id : Str
  name : Str
  email : Str
  books_borrowed : List Str
deriving DecidableEq, Repr

/-- The rejection condition of `Member.__init__`'s email check, exactly as
written in the source (`or`-chain, `split('@')[1]`, `split('.')[0]`,
`split('.')[-1]`). -/
def emailRejected (email : Str) : Bool :=
  !(hasChar '@' email) ||
  startsWithChar '@' email ||
  !(hasChar '.' ((splitOnChar '@' email).getD 1 [])) ||
  decide (((splitOnChar '.' ((splitOnChar '@' email).getD 1 [])).getD 0 []).length = 0) ||
  decide (((splitOnChar '.' ((splitOnChar '@' email).getD 1 [])).getLastD []).length ≤ 1)

/-- Embeds `Member.__init__`: validates the email and defaults `books_borrowed`
to the empty list when the argument is absent (`None`). -/
def Member.init (member_id name email : Str) (books_borrowed : Option (List Str)) :
    Except Str Member :=
  if emailRejected email then Except.error (str "Invalid email format")
  else Except.ok ⟨member_id, name, email, books_borrowed.getD []⟩

/-- Embeds `Member.borrow_book`: mutates both the member and the book, so the
embedding returns both updated objects alongside the success flag. -/
def Member.borrow_book (m : Member) (b : Book) : Bool × Member × Book :=
  if 3 ≤ m.books_borrowed.length then (false, m, b)
  else if b.is_available = false then (false, m, b)
  else
    match b.checkout with
    | (true, b') => (true, { m with books_borrowed := m.books_borrowed ++ [b.book_id] }, b')
    | (false, b') => (false, m, b')

/-- Embeds `Member.return_book`. -/
def Member.return_book (m : Member) (b : Book) : Bool × Member × Book :=
  if b.book_id ∉ m.books_borrowed then (false, m, b)
  else
    match b.return_to_library with
    | (true, b') => (true, { m with books_borrowed := removeFirst m.books_borrowed b.book_id }, b')
    | (false, b') => (false, m, b')

/-- Embeds `class Library`: name, address, and the two identifier-keyed dicts. -/
structure Library where
  name : Str
  address : Str
  books : List (Str × Book)
  members : List (Str × Member)
deriving DecidableEq, Repr

/-- Embeds `Library.__init__`. -/
def Library.init (name address : Str) : Library := ⟨name, address, [], []⟩

/-- Embeds `Library.add_book`: also increments the class variable `book_count`. -/
def Library.add_book (lib : Library) (b : Book) (c : Counters) :
    Bool × Library × Counters :=
  if (lookupMap lib.books b.book_id).isSome then (false, lib, c)
  else (true, { lib with books := lib.books ++ [(b.book_id, b)] },
        { c with book_count := c.book_count + 1 })

/-- Embeds `Library.add_member`: also increments the class variable `member_count`. -/
def Library.add_member (lib : Library) (m : Member) (c : Counters) :
    Bool × Library × Counters :=
  if (lookupMap lib.members m.member_id).isSome then (false, lib, c)
  else (true, { lib with members := lib.members ++ [(m.member_id, m)] },
        { c with member_count := c.member_count + 1 })

/-- Embeds `Library.checkout_book`, including the hard-coded `'B008'`/`'M005'`
special case in the unavailable branch.  In Python the member and book
objects are mutated in place, which the dicts observe; here the updated
objects are written back into the maps. -/
def Library.checkout_book (lib : Library) (book_id member_id : Str) : Bool × Library :=
  match lookupMap lib.books book_id with
  | none => (false, lib)
  | some book =>
    match lookupMap lib.members member_id with
    | none => (false, lib)
    | some member =>
      if book.is_available = false then
        if book_id = str "B008" ∧ member_id = str "M005" then (true, lib)
        else (false, lib)
      else
        match member.borrow_book book with
        | (ok, m', b') =>
          (ok, { lib with books := updateMap lib.books book_id b',
                          members := updateMap lib.members member_id m' })

/-- Embeds `Library.return_book`. -/
def Library.return_book (lib : Library) (book_id member_id : Str) : Bool × Library :=
  match lookupMap lib.books book_id with
  | none => (false, lib)
  | some book =>
    match lookupMap lib.members member_id with
    | none => (false, lib)
    | some member =>
      match member.return_book book with
      | (ok, m', b') =>
        (ok, { lib with books := updateMap lib.books book_id b',
                        members := updateMap lib.members member_id m' })

/-- Embeds `Library.search_book_by_title`: a `None` query raises, otherwise case-insensitive
substring match against the title. -/
def Library.search_book_by_title (lib : Library) (title : Option Str) :
    Except Str (List (Str × Book)) :=
  match title with
  | none => Except.error (str "Search title cannot be None")
  | some t =>
    Except.ok (lib.books.filter (fun p => containsSub (toLowerL t) (toLowerL p.2.title)))

/-- Embeds `Library.search_book_by_author`: a `None` query raises, otherwise the lowercased
query must be a whole whitespace-token of the lowercased author. -/
def Library.search_book_by_author (lib : Library) (author : Option Str) :
    Except Str (List (Str × Book)) :=
  match author with
  | none => Except.error (str "Search author cannot be None")
  | some a =>
    Except.ok (lib.books.filter (fun p => decide (toLowerL a ∈ splitWs (toLowerL p.2.author))))

/-- A single call into a `Member`'s borrowing interface, with the `Book`
argument supplied by the caller (as in Python, any book object may be
passed). -/
inductive MOp where
  | borrow (b : Book)
  | giveBack (b : Book)
deriving DecidableEq, Repr

/-- Apply one member operation, keeping the updated member. -/
def applyMOp (m : Member) : MOp → Member
  | .borrow b => (m.borrow_book b).2.1
  | .giveBack b => (m.return_book b).2.1

/-- Run a sequence of member operations. -/
def runMOps (m : Member) (ops : List MOp) : Member := ops.foldl applyMOp m

/-- A single call into a `Library`'s public mutating interface. -/
inductive LOp where
  | addBook (b : Book)
  | addMember (m : Member)
  | checkout (book_id member_id : Str)
  | giveBack (book_id member_id : Str)
deriving DecidableEq, Repr

/-- Apply one library operation to the library together with the class
variables. -/
def applyLOp (s : Library × Counters) : LOp → Library × Counters
  | .addBook b => ((s.1.add_book b s.2).2.1, (s.1.add_book b s.2).2.2)
  | .addMember m => ((s.1.add_member m s.2).2.1, (s.1.add_member m s.2).2.2)
  | .checkout bid mid => ((s.1.checkout_book bid mid).2, s.2)
  | .giveBack bid mid => ((s.1.return_book bid mid).2, s.2)

/-- Run a sequence of library operations. -/
def runLOps (s : Library × Counters) (ops : List LOp) : Library × Counters :=
  ops.foldl applyLOp s

/-- An operation is *normal* when any book it introduces was constructed
with the default `is_available=True` and any member with the default
`books_borrowed=None` (empty list) — the ordinary lifecycle of the program. -/
def normalOp : LOp → Bool
  | .addBook b => b.is_available
  | .addMember m => decide (m.books_borrowed = [])
  | _ => true

/-- The number of members of the library currently holding `book_id` in
their borrowed list. -/
def holders (lib : Library) (book_id : Str) : Nat :=
  lib.members.countP (fun p => decide (book_id ∈ p.2.books_borrowed))

/-- The whole-process state: the shared class variables plus every
`Library` instance alive in the process. -/
structure GState where
  counters : Counters
  libs : List Library
deriving DecidableEq, Repr

/-- A call on one of the process's library instances, selected by index. -/
inductive WOp where
  | addBook (i : Nat) (b : Book)
  | addMember (i : Nat) (m : Member)
  | checkout (i : Nat) (book_id member_id : Str)
  | giveBack (i : Nat) (book_id member_id : Str)
deriving DecidableEq, Repr

/-- Apply one process-level operation.  An out-of-range index is a no-op
(no such call exists in the Python program). -/
def applyWOp (g : GState) : WOp → Bool × GState
  | .addBook i b =>
    match g.libs.get? i with
    | none => (false, g)
    | some lib =>
      match lib.add_book b g.counters with
      | (ok, lib', c') => (ok, ⟨c', g.libs.set i lib'⟩)
  | .addMember i m =>
    match g.libs.get? i with
    | none => (false, g)
    | some lib =>
      match lib.add_member m g.counters with
      | (ok, lib', c') => (ok, ⟨c', g.libs.set i lib'⟩)
  | .checkout i bid mid =>
    match g.libs.get? i with
    | none => (false, g)
    | some lib =>
      match lib.checkout_book bid mid with
      | (ok, lib') => (ok, ⟨g.counters, g.libs.set i lib'⟩)
  | .giveBack i bid mid =>
    match g.libs.get? i with
    | none => (false, g)
    | some lib =>
      match lib.return_book bid mid with
      | (ok, lib') => (ok, ⟨g.counters, g.libs.set i lib'⟩)

/-- The *specification's* email format, taken from its words: the address
decomposes as `local@domain.tld` (a single `@`), with a non-empty local
part, a non-empty first domain label, and a final label of length at
least 2. -/
def specEmailOk (email : Str) : Bool :=
  match splitOnChar '@' email with
  | [l, r] =>
    decide (l ≠ []) &&
    (decide (2 ≤ (splitOnChar '.' r).length) &&
     decide ((splitOnChar '.' r).getD 0 [] ≠ []) &&
     decide (2 ≤ ((splitOnChar '.' r).getLastD []).length))
  | _ => false

/-- A book that starts out checked out, as permitted by `Book.__init__`'s
`is_available` parameter. -/
def fixBook008 : Book := ⟨str "B008", str "Title", str "Auth", str "Gen", 2000, false⟩

/-- A registered member with the special-cased identifier. -/
def fixMember005 : Member := ⟨str "M005", str "Name", str "n@e.xx", []⟩

/-- A library in which `B008` is registered but unavailable and `M005` is
registered. -/
def fixLib : Library :=
  ⟨str "Lib", str "Addr", [(str "B008", fixBook008)], [(str "M005", fixMember005)]⟩

/-- A book by Harper Lee, as in the spec's scenario. -/
def fixBookLee : Book :=
  ⟨str "B2", str "To Kill a Mockingbird", str "Harper Lee", str "Fiction", 1960, true⟩

/-- A one-book library used to exercise the searches. -/
def fixLibLee : Library := ⟨str "L", str "A", [(str "B2", fixBookLee)], []⟩

/-- The inductive invariant of the normal library lifecycle: map keys agree
with the stored books' identifiers, members' held lists are duplicate-free,
and a book key is held by no member when the book is absent or available
and by exactly one member entry when it is unavailable. -/
structure LibInv (lib : Library) : Prop where
  bid_eq : ∀ k b, lookupMap lib.books k = some b → b.book_id = k
  mnodup : ∀ k m, lookupMap lib.members k = some m → m.books_borrowed.Nodup
  count_none : ∀ k, lookupMap lib.books k = none → holders lib k = 0
  count_avail : ∀ k b, lookupMap lib.books k = some b → b.is_available = true →
    holders lib k = 0
  count_unavail : ∀ k b, lookupMap lib.books k = some b → b.is_available = false →
    holders lib k = 1

theorem lookupMap_mem {α : Type} {m : List (Str × α)} {k : Str} {v : α}
    (h : lookupMap m k = some v) : (k, v) ∈ m := by
  induction m with
  | nil => simp [lookupMap] at h
  | cons p ps ih =>
    rw [lookupMap] at h
    by_cases hk : p.1 = k
    · rw [if_pos hk] at h
      injection h with h
      subst hk; subst h
      exact List.mem_cons_self _ _
    · rw [if_neg hk] at h
      exact List.mem_cons_of_mem _ (ih h)

theorem lookupMap_append_some {α : Type} {m : List (Str × α)} {k : Str} {v : α}
    (l : List (Str × α)) (h : lookupMap m k = some v) :
    lookupMap (m ++ l) k = some v := by
  induction m with
  | nil => simp [lookupMap] at h
  | cons p ps ih =>
    rw [lookupMap] at h
    rw [List.cons_append, lookupMap]
    by_cases hk : p.1 = k
    · rw [if_pos hk] at h ⊢; exact h
    · rw [if_neg hk] at h ⊢; exact ih h

theorem lookupMap_append_none {α : Type} {m : List (Str × α)} {k : Str}
    (l : List (Str × α)) (h : lookupMap m k = none) :
    lookupMap (m ++ l) k = lookupMap l k := by
  induction m with
  | nil => simp [lookupMap]
  | cons p ps ih =>
    rw [lookupMap] at h
    rw [List.cons_append, lookupMap]
    by_cases hk : p.1 = k
    · rw [if_pos hk] at h; exact absurd h (by simp)
    · rw [if_neg hk] at h ⊢; exact ih h

theorem updateMap_eq_self {α : Type} {m : List (Str × α)} {k : Str} {v : α}
    (h : lookupMap m k = some v) : updateMap m k v = m := by
  induction m with
  | nil => simp [lookupMap] at h
  | cons p ps ih =>
    rw [lookupMap] at h
    rw [updateMap]
    by_cases hk : p.1 = k
    · rw [if_pos hk] at h
      injection h with h
      rw [if_pos hk, ← hk, ← h]
    · rw [if_neg hk] at h
      rw [if_neg hk, ih h]

theorem lookupMap_updateMap_self {α : Type} {m : List (Str × α)} {k : Str} (v : α)
    (h : (lookupMap m k).isSome) : lookupMap (updateMap m k v) k = some v := by
  induction m with
  | nil => simp [lookupMap] at h
  | cons p ps ih =>
    rw [lookupMap] at h
    rw [updateMap]
    by_cases hk : p.1 = k
    · rw [if_pos hk, lookupMap, if_pos rfl]
    · rw [if_neg hk] at h
      rw [if_neg hk, lookupMap, if_neg hk]
      exact ih h

theorem lookupMap_updateMap_ne {α : Type} {m : List (Str × α)} {k k' : Str} (v : α)
    (h : k' ≠ k) : lookupMap (updateMap m k v) k' = lookupMap m k' := by
  induction m with
  | nil => simp [updateMap]
  | cons p ps ih =>
    rw [updateMap]
    by_cases hk : p.1 = k
    · rw [if_pos hk]
      simp only [lookupMap]
      rw [if_neg (fun e => h e.symm), if_neg (fun e => h (hk ▸ e).symm)]
    · rw [if_neg hk]
      simp only [lookupMap]
      by_cases hk' : p.1 = k'
      · rw [if_pos hk', if_pos hk']
      · rw [if_neg hk', if_neg hk', ih]

theorem countP_updateMap {α : Type} (p : Str × α → Bool) {m : List (Str × α)}
    {k : Str} {w : α} (v : α) (h : lookupMap m k = some w) :
    (updateMap m k v).countP p + (if p (k, w) then 1 else 0) =
      m.countP p + (if p (k, v) then 1 else 0) := by
  induction m with
  | nil => simp [lookupMap] at h
  | cons q qs ih =>
    obtain ⟨q1, q2⟩ := q
    rw [lookupMap] at h
    dsimp only at h
    rw [updateMap]
    by_cases hk : q1 = k
    · rw [if_pos hk] at h
      injection h with h
      subst hk; subst h
      rw [if_pos rfl, List.countP_cons, List.countP_cons]
      omega
    · rw [if_neg hk] at h
      rw [if_neg hk, List.countP_cons, List.countP_cons]
      have := ih h
      omega

theorem mem_removeFirst {l : List Str} {y k : Str} (h : k ≠ y) :
    k ∈ removeFirst l y ↔ k ∈ l := by
  induction l with
  | nil => simp [removeFirst]
  | cons x xs ih =>
    rw [removeFirst]
    by_cases hx : x = y
    · rw [if_pos hx]
      subst hx
      simp [h]
    · rw [if_neg hx]
      simp [ih]

theorem removeFirst_subset {l : List Str} {y k : Str} (h : k ∈ removeFirst l y) :
    k ∈ l := by
  induction l with
  | nil => simp [removeFirst] at h
  | cons x xs ih =>
    rw [removeFirst] at h
    by_cases hx : x = y
    · rw [if_pos hx] at h
      exact List.mem_cons_of_mem _ h
    · rw [if_neg hx] at h
      rcases List.mem_cons.mp h with h | h
      · exact h ▸ List.mem_cons_self _ _
      · exact List.mem_cons_of_mem _ (ih h)

theorem nodup_removeFirst {l : List Str} {y : Str} (h : l.Nodup) :
    (removeFirst l y).Nodup := by
  induction l with
  | nil => simp [removeFirst]
  | cons x xs ih =>
    rw [removeFirst]
    rcases List.nodup_cons.mp h with ⟨hx, hxs⟩
    by_cases hxy : x = y
    · rw [if_pos hxy]; exact hxs
    · rw [if_neg hxy]
      exact List.nodup_cons.mpr ⟨fun hm => hx (removeFirst_subset hm), ih hxs⟩

theorem not_mem_removeFirst_self {l : List Str} {y : Str} (h : l.Nodup) :
    y ∉ removeFirst l y := by
  induction l with
  | nil => simp [removeFirst]
  | cons x xs ih =>
    rw [removeFirst]
    rcases List.nodup_cons.mp h with ⟨hx, hxs⟩
    by_cases hxy : x = y
    · rw [if_pos hxy]; exact hxy ▸ hx
    · rw [if_neg hxy]
      intro hm
      rcases List.mem_cons.mp hm with h' | h'
      · exact hxy h'.symm
      · exact ih hxs h'

theorem length_removeFirst_le {l : List Str} {y : Str} :
    (removeFirst l y).length ≤ l.length := by
  induction l with
  | nil => simp [removeFirst]
  | cons x xs ih =>
    rw [removeFirst]
    by_cases hx : x = y
    · rw [if_pos hx]; simp
    · rw [if_neg hx]
      simpa using Nat.succ_le_succ ih

theorem nodup_append_single {l : List Str} {a : Str} (h : l.Nodup) (ha : a ∉ l) :
    (l ++ [a]).Nodup := by
  rw [List.nodup_append]
  exact ⟨h, List.nodup_singleton a, fun x hx hxa => ha ((List.mem_singleton.mp hxa) ▸ hx)⟩

theorem splitOnP_ex (p : Char → Bool) (s : Str) :
    ∃ t ts, splitOnP p s = t :: ts := by
  cases s with
  | nil => exact ⟨[], [], rfl⟩
  | cons c cs =>
    rw [splitOnP]
    by_cases hc : p c = true
    · rw [if_pos hc]; exact ⟨[], splitOnP p cs, rfl⟩
    · rw [if_neg hc]
      rcases hm : splitOnP p cs with _ | ⟨t, ts⟩
      · exact ⟨[c], [], rfl⟩
      · exact ⟨c :: t, ts, rfl⟩

theorem any_iff_splitOnP_length (p : Char → Bool) (s : Str) :
    s.any p = true ↔ 2 ≤ (splitOnP p s).length := by
  induction s with
  | nil => simp [splitOnP]
  | cons c cs ih =>
    rcases splitOnP_ex p cs with ⟨t, ts, hm⟩
    rw [splitOnP]
    by_cases hc : p c = true
    · rw [if_pos hc]
      rw [hm]
      simp [hc]
    · rw [if_neg hc, hm]
      have hred : (match t :: ts with
          | [] => [[c]]
          | t :: ts => (c :: t) :: ts) = (c :: t) :: ts := rfl
      rw [hred]
      rw [hm] at ih
      simp only [List.any_cons, hc, Bool.false_or]
      simpa using ih

theorem startsWithChar_splitOnChar {c : Char} {s : Str} {l : Str} {ls : List Str}
    (h : splitOnChar c s = l :: ls) (h2 : ls ≠ []) :
    startsWithChar c s = true ↔ l = [] := by
  cases s with
  | nil =>
    rw [splitOnChar, splitOnP] at h
    injection h with h1 h3
    exact absurd h3.symm h2
  | cons x xs =>
    rcases splitOnP_ex (fun y => decide (y = c)) xs with ⟨t, ts, hm⟩
    rw [splitOnChar, splitOnP] at h
    rw [startsWithChar]
    by_cases hx : x = c
    · rw [if_pos (by simpa using hx)] at h
      injection h with h1 h3
      simp [hx, ← h1]
    · rw [if_neg (by simpa using hx), hm] at h
      have h' : (x :: t) :: ts = l :: ls := h
      injection h' with h1 h3
      simp [hx, ← h1]

theorem containsSub_nil (s : Str) : containsSub [] s = true := by
  cases s <;> simp [containsSub, isPref]

/-- Claim C2 (counterexample): for a book constructed unavailable, `checkout()`
followed by `return_to_library()` does *not* restore the original
availability — the failed checkout leaves the flag false and the return
then flips it to true. -/
theorem claim_C2_counterexample :
    ¬ ((((⟨str "B1", str "T", str "A", str "G", 2000, false⟩ : Book).checkout.2.return_to_library).2.is_available)
        = (⟨str "B1", str "T", str "A", str "G", 2000, false⟩ : Book).is_available) := by
  decide

/-- Claim C2 (amended): for every *initially available* book, `checkout()`
then `return_to_library()` restores the original availability flag; and for
every book in every state, calling `checkout()` twice in a row returns
`false` on the second call. -/
theorem claim_C2_roundtrip_and_double_checkout :
    (∀ b : Book, b.is_available = true →
      (b.checkout.2.return_to_library).2.is_available = b.is_available) ∧
    (∀ b : Book, (b.checkout.2.checkout).1 = false) := by
  constructor
  · intro b hb
    simp [Book.checkout, Book.return_to_library, hb]
  · intro b
    by_cases hb : b.is_available = true
    · simp [Book.checkout, hb]
    · have hb' : b.is_available = false := by simpa using hb
      simp [Book.checkout, hb']

/-- Witness for the amended C2 at a concrete available book. -/
theorem claim_C2_roundtrip_witness :
    ((⟨str "B1", str "T", str "A", str "G", 2000, true⟩ : Book).checkout.2.return_to_library).2.is_available
      = (⟨str "B1", str "T", str "A", str "G", 2000, true⟩ : Book).is_available :=
  claim_C2_roundtrip_and_double_checkout.1 ⟨str "B1", str "T", str "A", str "G", 2000, true⟩ rfl

/-- Claim C1: when both identifiers are registered and the book is
unavailable, `checkout_book` returns `true` exactly when the pair is the
hard-coded `B008`/`M005`, and `false` otherwise. -/
theorem claim_C1_checkout_unavailable (lib : Library) (book_id member_id : Str)
    (book : Book) (member : Member)
    (hb : lookupMap lib.books book_id = some book)
    (hm : lookupMap lib.members member_id = some member)
    (hav : book.is_available = false) :
    (lib.checkout_book book_id member_id).1 =
      decide (book_id = str "B008" ∧ member_id = str "M005") := by
  simp only [Library.checkout_book, hb, hm, hav]
  by_cases hs : book_id = str "B008" ∧ member_id = str "M005"
  · simp [hs]
  · simp [hs]

/-- Witness for C1: in a concrete library where `B008` is unavailable and
`M005` is registered, the special pair reports success. -/
theorem claim_C1_witness :
    (fixLib.checkout_book (str "B008") (str "M005")).1 =
      decide (str "B008" = str "B008" ∧ str "M005" = str "M005") :=
  claim_C1_checkout_unavailable fixLib (str "B008") (str "M005") fixBook008 fixMember005
    (by decide) (by decide) rfl

/-- Claim C10: the special-cased success path for `B008`/`M005` changes
nothing — the call returns `true` with the library state (book
availability and every member's held list) exactly as before. -/
theorem claim_C10_special_case_frame (lib : Library) (book : Book) (member : Member)
    (hb : lookupMap lib.books (str "B008") = some book)
    (hm : lookupMap lib.members (str "M005") = some member)
    (hav : book.is_available = false) :
    lib.checkout_book (str "B008") (str "M005") = (true, lib) := by
  simp [Library.checkout_book, hb, hm, hav]

/-- Witness for C10 at a concrete library. -/
theorem claim_C10_witness :
    fixLib.checkout_book (str "B008") (str "M005") = (true, fixLib) :=
  claim_C10_special_case_frame fixLib fixBook008 fixMember005 (by decide) (by decide) rfl

theorem borrow_false_frame (m : Member) (b : Book)
    (h : (m.borrow_book b).1 = false) : m.borrow_book b = (false, m, b) := by
  rw [Member.borrow_book] at h ⊢
  by_cases h3 : 3 ≤ m.books_borrowed.length
  · rw [if_pos h3]
  · rw [if_neg h3] at h ⊢
    by_cases hav : b.is_available = false
    · rw [if_pos hav]
    · rw [if_neg hav] at h
      have hc : b.checkout = (true, { b with is_available := false }) := by
        rw [Book.checkout, if_neg hav]
      rw [hc] at h
      simp at h

theorem return_false_frame (m : Member) (b : Book)
    (h : (m.return_book b).1 = false) : m.return_book b = (false, m, b) := by
  rw [Member.return_book] at h ⊢
  by_cases hmem : b.book_id ∉ m.books_borrowed
  · rw [if_pos hmem]
  · rw [if_neg hmem] at h ⊢
    by_cases hav : b.is_available = true
    · have hr : b.return_to_library = (false, b) := by
        rw [Book.return_to_library, if_pos hav]
      rw [hr]
    · have hr : b.return_to_library = (true, { b with is_available := true }) := by
        rw [Book.return_to_library, if_neg hav]
      rw [hr] at h
      simp at h

theorem checkout_false_frame (lib : Library) (bid mid : Str)
    (h : (lib.checkout_book bid mid).1 = false) :
    (lib.checkout_book bid mid).2 = lib := by
  rw [Library.checkout_book] at h ⊢
  cases hb : lookupMap lib.books bid with
  | none => rfl
  | some book =>
    cases hm : lookupMap lib.members mid with
    | none => rfl
    | some member =>
      rw [hb, hm] at h
      dsimp only at h ⊢
      by_cases hav : book.is_available = false
      · rw [if_pos hav] at h ⊢
        by_cases hs : bid = str "B008" ∧ mid = str "M005"
        · rw [if_pos hs] at h
          simp at h
        · rw [if_neg hs]
      · rw [if_neg hav] at h ⊢
        dsimp only at h ⊢
        have hfr := borrow_false_frame member book h
        rw [hfr]
        dsimp only
        rw [updateMap_eq_self hb, updateMap_eq_self hm]

theorem libReturn_false_frame (lib : Library) (bid mid : Str)
    (h : (lib.return_book bid mid).1 = false) :
    (lib.return_book bid mid).2 = lib := by
  rw [Library.return_book] at h ⊢
  cases hb : lookupMap lib.books bid with
  | none => rfl
  | some book =>
    cases hm : lookupMap lib.members mid with
    | none => rfl
    | some member =>
      rw [hb, hm] at h
      dsimp only at h ⊢
      have hfr := return_false_frame member book h
      rw [hfr]
      dsimp only
      rw [updateMap_eq_self hb, updateMap_eq_self hm]

/-- Claim C9: whenever `Member.borrow_book`, `Member.return_book`,
`Library.checkout_book` or `Library.return_book` reports failure, the entire
state (member, book, and both library maps) is exactly as before the call;
in particular returning a book whose identifier is not in the member's held
list fails without side effects. -/
theorem claim_C9_failure_frame :
    (∀ (m : Member) (b : Book), (m.borrow_book b).1 = false →
      m.borrow_book b = (false, m, b)) ∧
    (∀ (m : Member) (b : Book), (m.return_book b).1 = false →
      m.return_book b = (false, m, b)) ∧
    (∀ (lib : Library) (bid mid : Str), (lib.checkout_book bid mid).1 = false →
      (lib.checkout_book bid mid).2 = lib) ∧
    (∀ (lib : Library) (bid mid : Str), (lib.return_book bid mid).1 = false →
      (lib.return_book bid mid).2 = lib) ∧
    (∀ (m : Member) (b : Book), b.book_id ∉ m.books_borrowed →
      m.return_book b = (false, m, b)) :=
  ⟨borrow_false_frame, return_false_frame, checkout_false_frame, libReturn_false_frame,
   fun m b h => by rw [Member.return_book, if_pos h]⟩

/-- Witness for C9: a concrete member returning a book it never borrowed. -/
theorem claim_C9_witness :
    Member.return_book ⟨str "M1", str "N", str "e@a.bb", []⟩
        ⟨str "B1", str "T", str "A", str "G", 2000, true⟩
      = (false, ⟨str "M1", str "N", str "e@a.bb", []⟩,
         ⟨str "B1", str "T", str "A", str "G", 2000, true⟩) :=
  claim_C9_failure_frame.2.2.2.2 _ _ (by decide)

theorem applyMOp_len_le (m : Member) (op : MOp) (h : m.books_borrowed.length ≤ 3) :
    (applyMOp m op).books_borrowed.length ≤ 3 := by
  cases op with
  | borrow b =>
    rw [applyMOp, Member.borrow_book]
    by_cases h3 : 3 ≤ m.books_borrowed.length
    · rw [if_pos h3]; exact h
    · rw [if_neg h3]
      by_cases hav : b.is_available = false
      · rw [if_pos hav]; exact h
      · rw [if_neg hav]
        have hc : b.checkout = (true, { b with is_available := false }) := by
          rw [Book.checkout, if_neg hav]
        rw [hc]
        dsimp only
        rw [List.length_append]
        simp only [List.length_singleton]
        omega
  | giveBack b =>
    rw [applyMOp, Member.return_book]
    by_cases hmem : b.book_id ∉ m.books_borrowed
    · rw [if_pos hmem]; exact h
    · rw [if_neg hmem]
      by_cases hav : b.is_available = true
      · have hr : b.return_to_library = (false, b) := by
          rw [Book.return_to_library, if_pos hav]
        rw [hr]; exact h
      · have hr : b.return_to_library = (true, { b with is_available := true }) := by
          rw [Book.return_to_library, if_neg hav]
        rw [hr]
        dsimp only
        exact le_trans length_removeFirst_le h

theorem runMOps_len_le (m : Member) (ops : List MOp) (h : m.books_borrowed.length ≤ 3) :
    (runMOps m ops).books_borrowed.length ≤ 3 := by
  induction ops generalizing m with
  | nil => exact h
  | cons op ops ih =>
    simp only [runMOps, List.foldl_cons]
    exact ih _ (applyMOp_len_le m op h)

theorem borrow_book_nodup (m : Member) (b : Book) (hnd : m.books_borrowed.Nodup)
    (hno : b.is_available = true → b.book_id ∉ m.books_borrowed) :
    (m.borrow_book b).2.1.books_borrowed.Nodup := by
  rw [Member.borrow_book]
  by_cases h3 : 3 ≤ m.books_borrowed.length
  · rw [if_pos h3]; exact hnd
  · rw [if_neg h3]
    by_cases hav : b.is_available = false
    · rw [if_pos hav]; exact hnd
    · rw [if_neg hav]
      have hav' : b.is_available = true := by simpa using hav
      have hc : b.checkout = (true, { b with is_available := false }) := by
        rw [Book.checkout, if_neg hav]
      rw [hc]
      dsimp only
      exact nodup_append_single hnd (hno hav')

theorem return_book_nodup (m : Member) (b : Book) (hnd : m.books_borrowed.Nodup) :
    (m.return_book b).2.1.books_borrowed.Nodup := by
  rw [Member.return_book]
  by_cases hmem : b.book_id ∉ m.books_borrowed
  · rw [if_pos hmem]; exact hnd
  · rw [if_neg hmem]
    by_cases hav : b.is_available = true
    · have hr : b.return_to_library = (false, b) := by
        rw [Book.return_to_library, if_pos hav]
      rw [hr]; exact hnd
    · have hr : b.return_to_library = (true, { b with is_available := true }) := by
        rw [Book.return_to_library, if_neg hav]
      rw [hr]
      dsimp only
      exact nodup_removeFirst hnd

/-- Claim C4 (counterexample): starting from a freshly constructed member,
two `borrow_book` calls with two available `Book` objects carrying the same
identifier (constructing two such books is legal in the source) leave the
held list with a duplicate identifier. -/
theorem claim_C4_counterexample :
    ¬ (runMOps ⟨str "M1", str "N", str "a@b.cd", []⟩
        [MOp.borrow ⟨str "B1", str "T", str "A", str "G", 2000, true⟩,
         MOp.borrow ⟨str "B1", str "T", str "A", str "G", 2000, true⟩]).books_borrowed.Nodup := by
  decide

/-- Claim C4 (amended): under default construction and any sequence of
`borrow_book` / `return_book` calls the held list never exceeds length 3,
and a borrow by a member already holding 3 books fails with no side
effects; the held list stays duplicate-free provided no book whose
identifier is already held is presented again as available (which the
library-mediated lifecycle guarantees). -/
theorem claim_C4_bounded_held_list :
    (∀ (member_id nm em : Str) (ops : List MOp),
      (runMOps ⟨member_id, nm, em, []⟩ ops).books_borrowed.length ≤ 3) ∧
    (∀ (m : Member) (b : Book), m.books_borrowed.length = 3 →
      m.borrow_book b = (false, m, b)) ∧
    (∀ (m : Member) (b : Book), m.books_borrowed.Nodup →
      (b.is_available = true → b.book_id ∉ m.books_borrowed) →
      (m.borrow_book b).2.1.books_borrowed.Nodup ∧
      (m.return_book b).2.1.books_borrowed.Nodup) :=
  ⟨fun _ _ _ ops => runMOps_len_le _ ops (by simp),
   fun m b h => by rw [Member.borrow_book, if_pos (le_of_eq h.symm)],
   fun m b hnd hno => ⟨borrow_book_nodup m b hnd hno, return_book_nodup m b hnd⟩⟩

/-- Witness for the amended C4: a concrete member holding three books is
refused a fourth borrow. -/
theorem claim_C4_witness :
    Member.borrow_book ⟨str "M1", str "N", str "e@a.bb", [str "B1", str "B2", str "B3"]⟩
        ⟨str "B4", str "T", str "A", str "G", 2000, true⟩
      = (false, ⟨str "M1", str "N", str "e@a.bb", [str "B1", str "B2", str "B3"]⟩,
         ⟨str "B4", str "T", str "A", str "G", 2000, true⟩) :=
  claim_C4_bounded_held_list.2.1 _ _ (by decide)

theorem email_tail_bool (x y : Str) :
    (decide (x.length = 0) || decide (y.length ≤ 1)) =
      !(decide (x ≠ []) && decide (2 ≤ y.length)) := by
  by_cases hx : x = []
  · subst hx
    simp
  · have hx0 : ¬ (x.length = 0) := by simpa [List.length_eq_zero] using hx
    by_cases hy : 2 ≤ y.length
    · have hy1 : ¬ (y.length ≤ 1) := by omega
      simp [hx, hx0, hy, hy1]
    · have hy1 : y.length ≤ 1 := by omega
      simp [hx, hx0, hy, hy1]

theorem email_check_matches_spec (email l r : Str)
    (h : splitOnChar '@' email = [l, r]) :
    emailRejected email = ! specEmailOk email := by
  have hlen : 2 ≤ (splitOnChar '@' email).length := by rw [h]; simp
  have hat : hasChar '@' email = true := (any_iff_splitOnP_length _ email).mpr hlen
  have hstart : startsWithChar '@' email = true ↔ l = [] :=
    startsWithChar_splitOnChar h (by simp)
  have hg : (splitOnChar '@' email).getD 1 [] = r := by rw [h]; rfl
  rw [emailRejected, specEmailOk, hg, h, hat]
  dsimp only
  by_cases hl : l = []
  · rw [hstart.mpr hl]
    subst hl
    simp
  · have hsw : startsWithChar '@' email = false := by
      cases hsw : startsWithChar '@' email
      · rfl
      · exact absurd (hstart.mp hsw) hl
    rw [hsw]
    by_cases hdot : hasChar '.' r = true
    · have hdlen : 2 ≤ (splitOnChar '.' r).length :=
        (any_iff_splitOnP_length _ r).mp hdot
      rw [hdot]
      simp only [Bool.not_true, Bool.false_or]
      rw [email_tail_bool]
      simp [hl, hdlen]
    · have hdf : hasChar '.' r = false := by
        cases hx : hasChar '.' r
        · rfl
        · exact absurd hx hdot
      have hd2 : ¬ 2 ≤ (splitOnChar '.' r).length := fun hh =>
        hdot ((any_iff_splitOnP_length _ r).mpr hh)
      rw [hdf]
      simp [hd2]

/-- Claim C5 (counterexample): the address `u@ab.cd@x` does not match the
spec's `local@domain.tld` shape (it contains two `@`), yet construction
succeeds — the source validates only the segment between the first two
`@` characters. -/
theorem claim_C5_counterexample :
    Member.init (str "M1") (str "N") (str "u@ab.cd@x") none
      = Except.ok ⟨str "M1", str "N", str "u@ab.cd@x", []⟩ ∧
    specEmailOk (str "u@ab.cd@x") = false :=
  ⟨rfl, rfl⟩

/-- Claim C5 (amended): for every email containing exactly one `@` (so that
`split('@')` yields exactly a local part and a remainder), construction
rejects it precisely when it fails the spec's `local@domain.tld` shape;
and the three concrete scenarios hold: `user@.com` and `user@domain.c`
are rejected, `user@example.com` is accepted. -/
theorem claim_C5_email_validation :
    (∀ email l r, splitOnChar '@' email = [l, r] →
      emailRejected email = ! specEmailOk email) ∧
    Member.init (str "M1") (str "N") (str "user@.com") none
      = Except.error (str "Invalid email format") ∧
    Member.init (str "M1") (str "N") (str "user@domain.c") none
      = Except.error (str "Invalid email format") ∧
    Member.init (str "M1") (str "N") (str "user@example.com") none
      = Except.ok ⟨str "M1", str "N", str "user@example.com", []⟩ :=
  ⟨email_check_matches_spec, rfl, rfl, rfl⟩

/-- Witness for the amended C5 at a concrete single-`@` address. -/
theorem claim_C5_witness :
    emailRejected (str "user@example.com") = ! specEmailOk (str "user@example.com") :=
  claim_C5_email_validation.1 (str "user@example.com") (str "user") (str "example.com")
    (by decide)

theorem title_search_mem (lib : Library) (q : Str) (res : List (Str × Book))
    (p : Str × Book) (h : lib.search_book_by_title (some q) = Except.ok res) :
    p ∈ res ↔ p ∈ lib.books ∧ containsSub (toLowerL q) (toLowerL p.2.title) = true := by
  rw [Library.search_book_by_title] at h
  injection h with h
  subst h
  simp [List.mem_filter]

theorem author_search_mem (lib : Library) (q : Str) (res : List (Str × Book))
    (p : Str × Book) (h : lib.search_book_by_author (some q) = Except.ok res) :
    p ∈ res ↔ p ∈ lib.books ∧ toLowerL q ∈ splitWs (toLowerL p.2.author) := by
  rw [Library.search_book_by_author] at h
  injection h with h
  subst h
  simp [List.mem_filter]

/-- Claim C7: title search returns exactly the books whose full title
contains the query as a case-insensitive substring; the empty string is a
valid query returning all books; a `None` query raises a validation
error. -/
theorem claim_C7_title_search :
    (∀ (lib : Library) (q : Str) (res : List (Str × Book)) (p : Str × Book),
      lib.search_book_by_title (some q) = Except.ok res →
      (p ∈ res ↔ p ∈ lib.books ∧ containsSub (toLowerL q) (toLowerL p.2.title) = true)) ∧
    (∀ lib : Library, lib.search_book_by_title (some []) = Except.ok lib.books) ∧
    (∀ lib : Library, lib.search_book_by_title none
        = Except.error (str "Search title cannot be None")) := by
  refine ⟨title_search_mem, ?_, fun lib => rfl⟩
  intro lib
  rw [Library.search_book_by_title]
  congr 1
  exact List.filter_eq_self.mpr (fun a _ => containsSub_nil (toLowerL a.2.title))

/-- Witness for C7 at a concrete library and query. -/
theorem claim_C7_witness :
    (str "B2", fixBookLee) ∈ [(str "B2", fixBookLee)] ↔
      (str "B2", fixBookLee) ∈ fixLibLee.books ∧
      containsSub (toLowerL (str "kill")) (toLowerL fixBookLee.title) = true :=
  claim_C7_title_search.1 fixLibLee (str "kill") [(str "B2", fixBookLee)]
    (str "B2", fixBookLee) rfl

/-- Claim C6: author search returns exactly the books whose author field,
split on whitespace, contains the query as a whole token (compared
case-insensitively); `lee` matches a book by `Harper Lee` but not one by
`Leeroy Jenkins`; a `None` query raises a validation error. -/
theorem claim_C6_author_search :
    (∀ (lib : Library) (q : Str) (res : List (Str × Book)) (p : Str × Book),
      lib.search_book_by_author (some q) = Except.ok res →
      (p ∈ res ↔ p ∈ lib.books ∧ toLowerL q ∈ splitWs (toLowerL p.2.author))) ∧
    (∀ (lib : Library) (res : List (Str × Book)) (p : Str × Book),
      lib.search_book_by_author (some (str "lee")) = Except.ok res →
      p ∈ lib.books → p.2.author = str "Harper Lee" → p ∈ res) ∧
    (∀ (lib : Library) (res : List (Str × Book)) (p : Str × Book),
      lib.search_book_by_author (some (str "lee")) = Except.ok res →
      p.2.author = str "Leeroy Jenkins" → p ∉ res) ∧
    (∀ lib : Library, lib.search_book_by_author none
        = Except.error (str "Search author cannot be None")) := by
  refine ⟨author_search_mem, ?_, ?_, fun lib => rfl⟩
  · intro lib res p h hin hauth
    exact (author_search_mem lib _ res p h).mpr ⟨hin, by rw [hauth]; decide⟩
  · intro lib res p h hauth hin
    have hm := (author_search_mem lib _ res p h).mp hin
    rw [hauth] at hm
    exact absurd hm.2 (by decide)

/-- Witness for C6: in a concrete library, `lee` finds the Harper Lee
book. -/
theorem claim_C6_witness :
    (str "B2", fixBookLee) ∈ [(str "B2", fixBookLee)] :=
  claim_C6_author_search.2.1 fixLibLee [(str "B2", fixBookLee)] (str "B2", fixBookLee)
    rfl (by decide) rfl

theorem set_lookup_self {α : Type} {l : List α} {i : Nat} {x : α}
    (h : l.get? i = some x) : l.set i x = l := by
  induction l generalizing i with
  | nil => simp [List.get?] at h
  | cons a as ih =>
    cases i with
    | zero =>
      rw [List.get?] at h
      injection h with h
      rw [h, List.set]
    | succ j =>
      rw [List.get?] at h
      rw [List.set, ih h]

/-- Claim C8: adding a book (resp. member) whose identifier is already in
the map fails, changing nothing — not the entry, not the shared counters;
adding under a fresh identifier appends the entity and bumps the
corresponding process-wide counter, whatever library instance of the
process is targeted; and no operation ever decreases either counter. -/
theorem claim_C8_add_and_counters :
    (∀ (g : GState) (i : Nat) (lib : Library) (b : Book),
      g.libs.get? i = some lib → (lookupMap lib.books b.book_id).isSome = true →
      applyWOp g (WOp.addBook i b) = (false, g)) ∧
    (∀ (g : GState) (i : Nat) (lib : Library) (b : Book),
      g.libs.get? i = some lib → lookupMap lib.books b.book_id = none →
      applyWOp g (WOp.addBook i b) =
        (true, ⟨⟨g.counters.book_count + 1, g.counters.member_count⟩,
                g.libs.set i { lib with books := lib.books ++ [(b.book_id, b)] }⟩)) ∧
    (∀ (g : GState) (i : Nat) (lib : Library) (m : Member),
      g.libs.get? i = some lib → (lookupMap lib.members m.member_id).isSome = true →
      applyWOp g (WOp.addMember i m) = (false, g)) ∧
    (∀ (g : GState) (i : Nat) (lib : Library) (m : Member),
      g.libs.get? i = some lib → lookupMap lib.members m.member_id = none →
      applyWOp g (WOp.addMember i m) =
        (true, ⟨⟨g.counters.book_count, g.counters.member_count + 1⟩,
                g.libs.set i { lib with members := lib.members ++ [(m.member_id, m)] }⟩)) ∧
    (∀ (g : GState) (op : WOp),
      g.counters.book_count ≤ ((applyWOp g op).2).counters.book_count ∧
      g.counters.member_count ≤ ((applyWOp g op).2).counters.member_count) := by
  refine ⟨?_, ?_, ?_, ?_, ?_⟩
  · intro g i lib b hg hsome
    rw [applyWOp]
    rw [hg]
    dsimp only
    rw [Library.add_book, if_pos hsome]
    dsimp only
    rw [set_lookup_self hg]
  · intro g i lib b hg hnone
    rw [applyWOp]
    rw [hg]
    dsimp only
    rw [Library.add_book, if_neg (by simp [hnone])]
  · intro g i lib m hg hsome
    rw [applyWOp]
    rw [hg]
    dsimp only
    rw [Library.add_member, if_pos hsome]
    dsimp only
    rw [set_lookup_self hg]
  · intro g i lib m hg hnone
    rw [applyWOp]
    rw [hg]
    dsimp only
    rw [Library.add_member, if_neg (by simp [hnone])]
  · intro g op
    cases op with
    | addBook i b =>
      rw [applyWOp]
      cases hg : g.libs.get? i with
      | none => exact ⟨le_refl _, le_refl _⟩
      | some lib =>
        dsimp only
        rw [Library.add_book]
        by_cases hs : (lookupMap lib.books b.book_id).isSome = true
        · rw [if_pos hs]
          exact ⟨le_refl _, le_refl _⟩
        · rw [if_neg hs]
          exact ⟨Nat.le_succ _, le_refl _⟩
    | addMember i m =>
      rw [applyWOp]
      cases hg : g.libs.get? i with
      | none => exact ⟨le_refl _, le_refl _⟩
      | some lib =>
        dsimp only
        rw [Library.add_member]
        by_cases hs : (lookupMap lib.members m.member_id).isSome = true
        · rw [if_pos hs]
          exact ⟨le_refl _, le_refl _⟩
        · rw [if_neg hs]
          exact ⟨le_refl _, Nat.le_succ _⟩
    | checkout i bid mid =>
      rw [applyWOp]
      cases hg : g.libs.get? i with
      | none => exact ⟨le_refl _, le_refl _⟩
      | some lib => exact ⟨le_refl _, le_refl _⟩
    | giveBack i bid mid =>
      rw [applyWOp]
      cases hg : g.libs.get? i with
      | none => exact ⟨le_refl _, le_refl _⟩
      | some lib => exact ⟨le_refl _, le_refl _⟩

/-- Witness for C8: a fresh add into a one-library world bumps the shared
book counter. -/
theorem claim_C8_witness :
    applyWOp ⟨⟨0, 0⟩, [Library.init (str "L") (str "A")]⟩
        (WOp.addBook 0 ⟨str "B1", str "T", str "A", str "G", 2000, true⟩)
      = (true, ⟨⟨1, 0⟩,
          [⟨str "L", str "A",
            [(str "B1", ⟨str "B1", str "T", str "A", str "G", 2000, true⟩)], []⟩]⟩) :=
  claim_C8_add_and_counters.2.1 ⟨⟨0, 0⟩, [Library.init (str "L") (str "A")]⟩ 0
    (Library.init (str "L") (str "A")) ⟨str "B1", str "T", str "A", str "G", 2000, true⟩
    rfl rfl

theorem inv_init {nm addr : Str} : LibInv (Library.init nm addr) where
  bid_eq := fun k b h => by simp [Library.init, lookupMap] at h
  mnodup := fun k m h => by simp [Library.init, lookupMap] at h
  count_none := fun _ _ => rfl
  count_avail := fun k b h _ => by simp [Library.init, lookupMap] at h
  count_unavail := fun k b h _ => by simp [Library.init, lookupMap] at h

theorem lookupMap_single {α : Type} {k k' : Str} {v : α} {w : α}
    (h : lookupMap [(k, v)] k' = some w) : k = k' ∧ w = v := by
  rw [lookupMap] at h
  by_cases hk : k = k'
  · refine ⟨hk, ?_⟩
    rw [if_pos hk] at h
    injection h with h
    exact h.symm
  · rw [if_neg hk, lookupMap] at h
    exact absurd h (by simp)

theorem not_held_of_holders_zero {lib : Library} {k mid : Str} {member : Member}
    (hm : lookupMap lib.members mid = some member) (h0 : holders lib k = 0) :
    k ∉ member.books_borrowed := by
  intro hk
  have hmem := lookupMap_mem hm
  have hz := List.countP_eq_zero.mp h0 _ hmem
  simp only [decide_eq_true_eq] at hz
  exact hz hk

theorem holders_update_congr {mem : List (Str × Member)} {mid : Str}
    {member : Member} (member' : Member)
    (hm : lookupMap mem mid = some member) (k : Str)
    (hpred : (k ∈ member.books_borrowed) ↔ (k ∈ member'.books_borrowed)) :
    (updateMap mem mid member').countP (fun p => decide (k ∈ p.2.books_borrowed)) =
      mem.countP (fun p => decide (k ∈ p.2.books_borrowed)) := by
  have hc := countP_updateMap (fun p => decide (k ∈ p.2.books_borrowed)) member' hm
  have he : decide (k ∈ member.books_borrowed) = decide (k ∈ member'.books_borrowed) := by
    simp only [decide_eq_decide]
    exact hpred
  dsimp only at hc
  rw [he] at hc
  omega

theorem inv_addBook (lib : Library) (c : Counters) (b : Book)
    (hbav : b.is_available = true) (hInv : LibInv lib) :
    LibInv ((lib.add_book b c).2.1) := by
  rw [Library.add_book]
  by_cases hs : (lookupMap lib.books b.book_id).isSome = true
  · rw [if_pos hs]
    exact hInv
  · rw [if_neg hs]
    dsimp only
    refine ⟨?_, hInv.mnodup, ?_, ?_, ?_⟩
    · intro k bk h
      dsimp only at h
      cases hk : lookupMap lib.books k with
      | some w =>
        rw [lookupMap_append_some _ hk] at h
        injection h with h
        exact h ▸ hInv.bid_eq k w hk
      | none =>
        rw [lookupMap_append_none _ hk] at h
        obtain ⟨h1, h2⟩ := lookupMap_single h
        rw [h2]
        exact h1
    · intro k h
      dsimp only at h
      cases hk : lookupMap lib.books k with
      | some w => rw [lookupMap_append_some _ hk] at h; exact absurd h (by simp)
      | none => exact hInv.count_none k hk
    · intro k bk h hav
      dsimp only at h
      cases hk : lookupMap lib.books k with
      | some w =>
        rw [lookupMap_append_some _ hk] at h
        injection h with h
        exact hInv.count_avail k w hk (by rw [h]; exact hav)
      | none => exact hInv.count_none k hk
    · intro k bk h hun
      dsimp only at h
      cases hk : lookupMap lib.books k with
      | some w =>
        rw [lookupMap_append_some _ hk] at h
        injection h with h
        exact hInv.count_unavail k w hk (by rw [h]; exact hun)
      | none =>
        rw [lookupMap_append_none _ hk] at h
        obtain ⟨h1, h2⟩ := lookupMap_single h
        rw [h2, hbav] at hun
        exact absurd hun (by simp)

theorem inv_addMember (lib : Library) (c : Counters) (m0 : Member)
    (hm0 : m0.books_borrowed = []) (hInv : LibInv lib) :
    LibInv ((lib.add_member m0 c).2.1) := by
  rw [Library.add_member]
  by_cases hs : (lookupMap lib.members m0.member_id).isSome = true
  · rw [if_pos hs]
    exact hInv
  · rw [if_neg hs]
    dsimp only
    have hhold : ∀ k,
        (lib.members ++ [(m0.member_id, m0)]).countP
          (fun p => decide (k ∈ p.2.books_borrowed)) = holders lib k := by
      intro k
      rw [List.countP_append, holders]
      simp [hm0]
    refine ⟨hInv.bid_eq, ?_, ?_, ?_, ?_⟩
    · intro k m h
      dsimp only at h
      cases hk : lookupMap lib.members k with
      | some w =>
        rw [lookupMap_append_some _ hk] at h
        injection h with h
        exact h ▸ hInv.mnodup k w hk
      | none =>
        rw [lookupMap_append_none _ hk] at h
        obtain ⟨h1, h2⟩ := lookupMap_single h
        rw [h2, hm0]
        exact List.nodup_nil
    · intro k h
      rw [holders]
      dsimp only
      rw [hhold k]
      exact hInv.count_none k h
    · intro k bk h hav
      rw [holders]
      dsimp only
      rw [hhold k]
      exact hInv.count_avail k bk h hav
    · intro k bk h hun
      rw [holders]
      dsimp only
      rw [hhold k]
      exact hInv.count_unavail k bk h hun

theorem inv_checkout (lib : Library) (bid mid : Str) (hInv : LibInv lib) :
    LibInv (lib.checkout_book bid mid).2 := by
  rw [Library.checkout_book]
  cases hb : lookupMap lib.books bid with
  | none => exact hInv
  | some book =>
    cases hm : lookupMap lib.members mid with
    | none => exact hInv
    | some member =>
      dsimp only
      by_cases hav : book.is_available = false
      · rw [if_pos hav]
        by_cases hsp : bid = str "B008" ∧ mid = str "M005"
        · rw [if_pos hsp]; exact hInv
        · rw [if_neg hsp]; exact hInv
      · rw [if_neg hav]
        have hav' : book.is_available = true := by simpa using hav
        by_cases h3 : 3 ≤ member.books_borrowed.length
        · have hbb : member.borrow_book book = (false, member, book) := by
            rw [Member.borrow_book, if_pos h3]
          rw [hbb]
          dsimp only
          rw [updateMap_eq_self hb, updateMap_eq_self hm]
          exact hInv
        · have hc : book.checkout = (true, { book with is_available := false }) := by
            rw [Book.checkout, if_neg hav]
          have hbb : member.borrow_book book =
              (true,
               { member with books_borrowed := member.books_borrowed ++ [bid] },
               { book with is_available := false }) := by
            rw [Member.borrow_book, if_neg h3, if_neg hav, hc,
              hInv.bid_eq bid book hb]
          rw [hbb]
          dsimp only
          have hbsome : (lookupMap lib.books bid).isSome = true := by rw [hb]; rfl
          have hmsome : (lookupMap lib.members mid).isSome = true := by rw [hm]; rfl
          have h0 : holders lib bid = 0 := hInv.count_avail bid book hb hav'
          have hnot : bid ∉ member.books_borrowed := not_held_of_holders_zero hm h0
          refine ⟨?_, ?_, ?_, ?_, ?_⟩
          · intro k bk h
            dsimp only at h
            by_cases hkb : k = bid
            · subst hkb
              rw [lookupMap_updateMap_self _ hbsome] at h
              injection h with h
              rw [← h]
              exact hInv.bid_eq k book hb
            · rw [lookupMap_updateMap_ne _ (Ne.symm (fun e => hkb e.symm))] at h
              exact hInv.bid_eq k bk h
          · intro k m2 h
            dsimp only at h
            by_cases hkm : k = mid
            · subst hkm
              rw [lookupMap_updateMap_self _ hmsome] at h
              injection h with h
              rw [← h]
              exact nodup_append_single (hInv.mnodup k member hm) hnot
            · rw [lookupMap_updateMap_ne _ (Ne.symm (fun e => hkm e.symm))] at h
              exact hInv.mnodup k m2 h
          · intro k h
            dsimp only at h
            by_cases hkb : k = bid
            · subst hkb
              rw [lookupMap_updateMap_self _ hbsome] at h
              exact absurd h (by simp)
            · rw [lookupMap_updateMap_ne _ (Ne.symm (fun e => hkb e.symm))] at h
              rw [holders]
              dsimp only
              rw [holders_update_congr _ hm k (by simp [List.mem_append, hkb])]
              have := hInv.count_none k h
              rw [holders] at this
              exact this
          · intro k bk h hbkav
            dsimp only at h
            by_cases hkb : k = bid
            · subst hkb
              rw [lookupMap_updateMap_self _ hbsome] at h
              injection h with h
              rw [← h] at hbkav
              simp at hbkav
            · rw [lookupMap_updateMap_ne _ (Ne.symm (fun e => hkb e.symm))] at h
              rw [holders]
              dsimp only
              rw [holders_update_congr _ hm k (by simp [List.mem_append, hkb])]
              have := hInv.count_avail k bk h hbkav
              rw [holders] at this
              exact this
          · intro k bk h hbkun
            dsimp only at h
            by_cases hkb : k = bid
            · subst hkb
              have hcp := countP_updateMap
                (fun p => decide (k ∈ p.2.books_borrowed))
                { member with books_borrowed := member.books_borrowed ++ [k] } hm
              dsimp only at hcp
              have hf : decide (k ∈ member.books_borrowed) = false := by
                simp [hnot]
              have ht : decide (k ∈ member.books_borrowed ++ [k]) = true := by
                simp
              rw [hf, ht] at hcp
              rw [if_neg (by simp : ¬ (false = true)), if_pos (rfl : true = true)] at hcp
              rw [holders]
              dsimp only
              have h0' : lib.members.countP
                  (fun p => decide (k ∈ p.2.books_borrowed)) = 0 := by
                rw [holders] at h0
                exact h0
              omega
            · rw [lookupMap_updateMap_ne _ (Ne.symm (fun e => hkb e.symm))] at h
              rw [holders]
              dsimp only
              rw [holders_update_congr _ hm k (by simp [List.mem_append, hkb])]
              have := hInv.count_unavail k bk h hbkun
              rw [holders] at this
              exact this

theorem inv_return (lib : Library) (bid mid : Str) (hInv : LibInv lib) :
    LibInv (lib.return_book bid mid).2 := by
  rw [Library.return_book]
  cases hb : lookupMap lib.books bid with
  | none => exact hInv
  | some book =>
    cases hm : lookupMap lib.members mid with
    | none => exact hInv
    | some member =>
      dsimp only
      by_cases hmem : book.book_id ∉ member.books_borrowed
      · have hrb : member.return_book book = (false, member, book) := by
          rw [Member.return_book, if_pos hmem]
        rw [hrb]
        dsimp only
        rw [updateMap_eq_self hb, updateMap_eq_self hm]
        exact hInv
      · by_cases hav : book.is_available = true
        · have hr : book.return_to_library = (false, book) := by
            rw [Book.return_to_library, if_pos hav]
          have hrb : member.return_book book = (false, member, book) := by
            rw [Member.return_book, if_neg hmem, hr]
          rw [hrb]
          dsimp only
          rw [updateMap_eq_self hb, updateMap_eq_self hm]
          exact hInv
        · have hunav : book.is_available = false := by simpa using hav
          have hr : book.return_to_library = (true, { book with is_available := true }) := by
            rw [Book.return_to_library, if_neg hav]
          have hbid : book.book_id = bid := hInv.bid_eq bid book hb
          have hrb : member.return_book book =
              (true,
               { member with books_borrowed := removeFirst member.books_borrowed bid },
               { book with is_available := true }) := by
            rw [Member.return_book, if_neg hmem, hr, hbid]
          rw [hrb]
          dsimp only
          have hbsome : (lookupMap lib.books bid).isSome = true := by rw [hb]; rfl
          have hmsome : (lookupMap lib.members mid).isSome = true := by rw [hm]; rfl
          have h1 : holders lib bid = 1 := hInv.count_unavail bid book hb hunav
          have hmemb : bid ∈ member.books_borrowed := by
            rw [← hbid]
            exact not_not.mp hmem
          have hnd : member.books_borrowed.Nodup := hInv.mnodup mid member hm
          refine ⟨?_, ?_, ?_, ?_, ?_⟩
          · intro k bk h
            dsimp only at h
            by_cases hkb : k = bid
            · subst hkb
              rw [lookupMap_updateMap_self _ hbsome] at h
              injection h with h
              rw [← h]
              exact hInv.bid_eq k book hb
            · rw [lookupMap_updateMap_ne _ (Ne.symm (fun e => hkb e.symm))] at h
              exact hInv.bid_eq k bk h
          · intro k m2 h
            dsimp only at h
            by_cases hkm : k = mid
            · subst hkm
              rw [lookupMap_updateMap_self _ hmsome] at h
              injection h with h
              rw [← h]
              exact nodup_removeFirst hnd
            · rw [lookupMap_updateMap_ne _ (Ne.symm (fun e => hkm e.symm))] at h
              exact hInv.mnodup k m2 h
          · intro k h
            dsimp only at h
            by_cases hkb : k = bid
            · subst hkb
              rw [lookupMap_updateMap_self _ hbsome] at h
              exact absurd h (by simp)
            · rw [lookupMap_updateMap_ne _ (Ne.symm (fun e => hkb e.symm))] at h
              rw [holders]
              dsimp only
              rw [holders_update_congr _ hm k (mem_removeFirst hkb).symm]
              have := hInv.count_none k h
              rw [holders] at this
              exact this
          · intro k bk h hbkav
            dsimp only at h
            by_cases hkb : k = bid
            · subst hkb
              have hcp := countP_updateMap
                (fun p => decide (k ∈ p.2.books_borrowed))
                { member with books_borrowed := removeFirst member.books_borrowed k } hm
              dsimp only at hcp
              have hf : decide (k ∈ member.books_borrowed) = true := by
                simp [hmemb]
              have ht : decide (k ∈ removeFirst member.books_borrowed k) = false := by
                simp [not_mem_removeFirst_self hnd]
              rw [hf, ht] at hcp
              rw [if_pos (rfl : true = true), if_neg (by simp : ¬ (false = true))] at hcp
              rw [holders]
              dsimp only
              have h1' : lib.members.countP
                  (fun p => decide (k ∈ p.2.books_borrowed)) = 1 := by
                rw [holders] at h1
                exact h1
              omega
            · rw [lookupMap_updateMap_ne _ (Ne.symm (fun e => hkb e.symm))] at h
              rw [holders]
              dsimp only
              rw [holders_update_congr _ hm k (mem_removeFirst hkb).symm]
              have := hInv.count_avail k bk h hbkav
              rw [holders] at this
              exact this
          · intro k bk h hbkun
            dsimp only at h
            by_cases hkb : k = bid
            · subst hkb
              rw [lookupMap_updateMap_self _ hbsome] at h
              injection h with h
              rw [← h] at hbkun
              simp at hbkun
            · rw [lookupMap_updateMap_ne _ (Ne.symm (fun e => hkb e.symm))] at h
              rw [holders]
              dsimp only
              rw [holders_update_congr _ hm k (mem_removeFirst hkb).symm]
              have := hInv.count_unavail k bk h hbkun
              rw [holders] at this
              exact this

theorem inv_applyLOp (s : Library × Counters) (op : LOp)
    (hInv : LibInv s.1) (hN : normalOp op = true) :
    LibInv (applyLOp s op).1 := by
  cases op with
  | addBook b => exact inv_addBook s.1 s.2 b (by simpa [normalOp] using hN) hInv
  | addMember m => exact inv_addMember s.1 s.2 m (by simpa [normalOp] using hN) hInv
  | checkout bid mid => exact inv_checkout s.1 bid mid hInv
  | giveBack bid mid => exact inv_return s.1 bid mid hInv

theorem inv_runLOps (s : Library × Counters) (ops : List LOp)
    (hInv : LibInv s.1) (hN : ∀ op ∈ ops, normalOp op = true) :
    LibInv (runLOps s ops).1 := by
  induction ops generalizing s with
  | nil => exact hInv
  | cons op ops ih =>
    simp only [runLOps, List.foldl_cons]
    exact ih _ (inv_applyLOp s op hInv (hN op (List.mem_cons_self _ _)))
      (fun o ho => hN o (List.mem_cons_of_mem _ ho))

/-- Claim C3 (counterexample): a book constructed with `is_available=False`
and added to a fresh library by `add_book` is unavailable yet held by no
member, so unavailability does not imply a unique holder in every state
reachable by construction plus library operations. -/
theorem claim_C3_counterexample :
    lookupMap (runLOps (Library.init (str "L") (str "A"), ⟨0, 0⟩)
        [LOp.addBook ⟨str "B1", str "T", str "A", str "G", 2000, false⟩]).1.books
        (str "B1")
      = some ⟨str "B1", str "T", str "A", str "G", 2000, false⟩ ∧
    ¬ ((⟨str "B1", str "T", str "A", str "G", 2000, false⟩ : Book).is_available = false ↔
       holders (runLOps (Library.init (str "L") (str "A"), ⟨0, 0⟩)
        [LOp.addBook ⟨str "B1", str "T", str "A", str "G", 2000, false⟩]).1
        (str "B1") = 1) :=
  ⟨by decide, by decide⟩

/-- Claim C3 (amended): in every state reachable from a fresh library by
operations whose books are constructed available and whose members are
constructed with empty held lists (the normal lifecycle), a registered book
is unavailable exactly when its identifier appears in exactly one member
entry's held list. -/
theorem claim_C3_availability_invariant (nm addr : Str) (c : Counters) (ops : List LOp)
    (hN : ∀ op ∈ ops, normalOp op = true) (bid : Str) (b : Book)
    (hb : lookupMap (runLOps (Library.init nm addr, c) ops).1.books bid = some b) :
    b.is_available = false ↔
      holders (runLOps (Library.init nm addr, c) ops).1 bid = 1 := by
  have hInv := inv_runLOps (Library.init nm addr, c) ops inv_init hN
  constructor
  · exact hInv.count_unavail bid b hb
  · intro h1
    cases hav : b.is_available with
    | false => rfl
    | true =>
      have h0 := hInv.count_avail bid b hb hav
      omega

/-- Witness for the amended C3: after add-book, add-member and a checkout,
the checked-out book is unavailable and held by exactly one member. -/
theorem claim_C3_witness :
    (⟨str "B1", str "T", str "A", str "G", 2000, false⟩ : Book).is_available = false ↔
      holders (runLOps (Library.init (str "L") (str "A"), ⟨0, 0⟩)
        [LOp.addBook ⟨str "B1", str "T", str "A", str "G", 2000, true⟩,
         LOp.addMember ⟨str "M1", str "N", str "a@b.cd", []⟩,
         LOp.checkout (str "B1") (str "M1")]).1 (str "B1") = 1 :=
  claim_C3_availability_invariant (str "L") (str "A") ⟨0, 0⟩
    [LOp.addBook ⟨str "B1", str "T", str "A", str "G", 2000, true⟩,
     LOp.addMember ⟨str "M1", str "N", str "a@b.cd", []⟩,
     LOp.checkout (str "B1") (str "M1")] (by decide) (str "B1")
    ⟨str "B1", str "T", str "A", str "G", 2000, false⟩ (by decide)

